import Mathlib

/-!
Verification of the DMO cloning and mapping scripts.

This file embeds, in Lean, the metadata-transformation and
mapping-consolidation core of the repository (cloneDMOs.py,
cloneNmappingDMO.py, updateDmoFields.py) and proves or refutes the
stated properties of the natural-language specification.

Python dictionaries fetched from the remote service are modelled as
structures; a key read with a default such as d.get(k, x) is modelled
as an Option field read with getD, and a key whose default is the
empty string in every call site is modelled directly as a String,
absence being the empty string.  Remote calls are modelled by an
oracle value describing the outcome of each call (2xx payload,
non-2xx HTTP error, or transport-level failure); a Python exception
that no handler catches is modelled as the value none.
-/

/-- Python str.replace of all occurrences of the three-character
pattern of two underscores followed by the letter c, scanning left to
right, as used in the inline rename of cloneDMOs.py line 103 and
cloneNmappingDMO.py line 85. -/
def removeDunderC : List Char → List Char
  | '_' :: '_' :: 'c' :: rest => removeDunderC rest
  | c :: rest => c :: removeDunderC rest
  | [] => []

/-- Python str.replace of all occurrences of the pattern of two
underscores followed by the letters d, l, m, as used on target names
in cloneNmappingDMO.py line 200 and cloneDMOs.py line 85. -/
def removeDunderDlm : List Char → List Char
  | '_' :: '_' :: 'd' :: 'l' :: 'm' :: rest => removeDunderDlm rest
  | c :: rest => c :: removeDunderDlm rest
  | [] => []

/-- Python str.replace with count 1 of the six-character system
namespace marker, as used in updateDmoFields.py line 182: the first
occurrence, scanning left to right, is removed. -/
def removeFirstSsot : List Char → List Char
  | 's' :: 's' :: 'o' :: 't' :: '_' :: '_' :: rest => rest
  | c :: rest => c :: removeFirstSsot rest
  | [] => []

/-- String wrapper for removeDunderC. -/
def pyReplaceDunderC (s : String) : String := ⟨removeDunderC s.data⟩

/-- String wrapper for removeDunderDlm. -/
def pyReplaceDunderDlm (s : String) : String := ⟨removeDunderDlm s.data⟩

/-- One element of the fields list of a fetched DMO definition.
Keys read with a string default in the scripts are plain strings
(absence is the empty string); label, description and type are
Options because their defaults differ between call sites or are
None. -/
structure DmoField where
  name : String
  label : Option String
  description : Option String
  type : Option String
  isPrimaryKey : Bool
  creationType : String
deriving DecidableEq

/-- A fetched DMO definition (the JSON body of a successful GET). -/
structure ObjectDefinition where
  name : String
  label : Option String
  description : Option String
  category : Option String
  fields : List DmoField
deriving DecidableEq

/-- One field of an outbound creation or field-addition payload. -/
structure NewFieldPayload where
  name : String
  label : String
  description : String
  isPrimaryKey : Bool
  isDynamicLookup : Bool
  dataType : Option String
deriving DecidableEq

/-- The outbound object-creation payload (POST body). -/
structure PostPayload where
  name : String
  label : String
  description : String
  dataSpaceName : String
  category : String
  fields : List NewFieldPayload
deriving DecidableEq

/-- The field loop shared verbatim by cloneNmappingDMO.py lines 82-85
and cloneDMOs.py lines 98-110: skip fields whose creationType is
System, rename the rest by removing every occurrence of the custom
suffix pattern, and re-emit with isDynamicLookup false. -/
def cloneFieldPayloads (fields : List DmoField) : List NewFieldPayload :=
  fields.filterMap (fun f =>
    if f.creationType == "System" then none
    else some
      { name := pyReplaceDunderC f.name
        label := f.label.getD ""
        description := f.description.getD ""
        isPrimaryKey := f.isPrimaryKey
        isDynamicLookup := false
        dataType := f.type })

/-- The POST payload built by create_new_dmo in cloneNmappingDMO.py
lines 72-85: name and dataSpaceName are the arguments of the call,
label, description and category come from the fetched definition,
category defaulting to OTHER when absent. -/
def create_new_dmo_payload (d : ObjectDefinition) (new_dmo_name_base new_data_space : String) :
    PostPayload :=
  { name := new_dmo_name_base
    label := d.label.getD ""
    description := d.description.getD ""
    dataSpaceName := new_data_space
    category := d.category.getD "OTHER"
    fields := cloneFieldPayloads d.fields }

/-- Hard-coded target data space of cloneDMOs.py line 27. -/
def NEW_DATA_SPACE_NAME : String := "IUBR"

/-- Hard-coded name marker of cloneDMOs.py line 28. -/
def NEW_DMO_PREFIX : String := "iub_"

/-- transform_payload_for_post of cloneDMOs.py lines 77-112 (the
non-None branch): the outbound name is the module constant marker
glued to the fetched definition name with the dlm pattern removed,
and dataSpaceName is the module constant. -/
def transform_payload_for_post (d : ObjectDefinition) : PostPayload :=
  { name := NEW_DMO_PREFIX ++ pyReplaceDunderDlm d.name
    label := d.label.getD ""
    description := d.description.getD ""
    dataSpaceName := NEW_DATA_SPACE_NAME
    category := d.category.getD "OTHER"
    fields := cloneFieldPayloads d.fields }

/-- The name rename of transform_field_from_source, updateDmoFields.py
lines 178-186: if the name starts with the system namespace marker,
remove its first occurrence (Python replace with count 1); otherwise,
if it ends with the custom suffix, drop the last three characters;
otherwise leave it unchanged. -/
def transform_name (s : String) : String :=
  if ("ssot__".data).isPrefixOf s.data then ⟨removeFirstSsot s.data⟩
  else if ("__c".data).isSuffixOf s.data then ⟨s.data.take (s.data.length - 3)⟩
  else s

/-- Modelled from the spec, section 4.1 and claim C2: the field-name
transform as the specification words it.  Strip exactly the leading
system-namespace marker once when present (and never also a trailing
marker); else strip exactly the one final custom-suffix occurrence;
else return the name unchanged.  Kept separate from transform_name,
which is translated from the source, so the two can be compared. -/
def spec_transform (s : String) : String :=
  if ("ssot__".data).isPrefixOf s.data then ⟨s.data.drop 6⟩
  else if ("__c".data).isSuffixOf s.data then ⟨s.data.take (s.data.length - 3)⟩
  else s

/-- transform_field_from_source of updateDmoFields.py lines 166-200:
drop System fields that are not primary keys, rename, drop fields
whose renamed form is empty, and build the new field payload, the
label defaulting to the renamed name when absent. -/
def transform_field_from_source (f : DmoField) : Option (String × NewFieldPayload) :=
  if f.creationType == "System" && !f.isPrimaryKey then none
  else
    let transformed_name := transform_name f.name
    if transformed_name == "" then none
    else some (transformed_name,
      { name := transformed_name
        label := f.label.getD transformed_name
        description := f.description.getD ""
        isPrimaryKey := f.isPrimaryKey
        isDynamicLookup := false
        dataType := f.type })

/-- The creation-payload fields produced under the Lenient policy:
every source field passed through transform_field_from_source, in
order, keeping the payloads of the fields that survive. -/
def lenientFieldPayloads (fields : List DmoField) : List NewFieldPayload :=
  fields.filterMap (fun f => (transform_field_from_source f).map (fun r => r.2))

/-- The set of field names already present in the target definition,
updateDmoFields.py lines 264-266 (membership is all that is used of
it, so a list models the Python set). -/
def target_existing_field_names (target : ObjectDefinition) : List String :=
  target.fields.map (fun f => f.name)

/-- The new-field selection loop of updateDmoFields.py lines 270-287:
transform every source field and keep the payloads whose renamed name
is not already present in the target definition. -/
def fields_to_add (source target : ObjectDefinition) : List NewFieldPayload :=
  source.fields.filterMap (fun sf =>
    match transform_field_from_source sf with
    | none => none
    | some (tn, p) =>
      if (target_existing_field_names target).contains tn then none else some p)

/-- One raw field-mapping pair, as returned inside a mapping record.
A key that is absent or holds the empty string is the empty string
(the scripts only test these values for truthiness or equality). -/
structure RawFieldMapping where
  sourceFieldDeveloperName : String
  targetFieldDeveloperName : String
deriving DecidableEq

/-- One element of objectSourceTargetMaps as fetched from the
service. -/
structure MappingRecord where
  sourceEntityDeveloperName : String
  fieldMappings : List RawFieldMapping
deriving DecidableEq

/-- The grouping accumulator of create_new_mappings: a Python dict in
insertion order from source-entity name to the accumulated field
mappings. -/
abbrev Groups := List (String × List RawFieldMapping)

/-- Appending fields under a key of the insertion-ordered dict of
cloneNmappingDMO.py lines 126-128: extend the existing entry, or
append a new entry at the end. -/
def insertGroup : Groups → String → List RawFieldMapping → Groups
  | [], k, fs => [(k, fs)]
  | (k', fs') :: rest, k, fs =>
    if k' == k then (k', fs' ++ fs) :: rest else (k', fs') :: insertGroup rest k fs

/-- Processing one mapping record in the grouping loop of
cloneNmappingDMO.py lines 122-128: records whose source entity name
is absent or empty are skipped. -/
def addRecord (acc : Groups) (m : MappingRecord) : Groups :=
  if m.sourceEntityDeveloperName == "" then acc
  else insertGroup acc m.sourceEntityDeveloperName m.fieldMappings

/-- The grouping loop run from a given accumulator. -/
def consolidated_from (acc : Groups) (ms : List MappingRecord) : Groups :=
  ms.foldl addRecord acc

/-- consolidated_mappings of cloneNmappingDMO.py lines 121-128. -/
def consolidated_mappings (ms : List MappingRecord) : Groups :=
  consolidated_from [] ms

/-- The per-group filter of cloneNmappingDMO.py lines 139-143: keep a
pair when its source field name is non-empty and its target field
name is not in the set of system fields to skip. -/
def filtered_fields (skip : List String) (fs : List RawFieldMapping) : List RawFieldMapping :=
  fs.filter (fun f =>
    !(f.sourceFieldDeveloperName == "") && !(skip.contains f.targetFieldDeveloperName))

/-- One consolidated outbound mapping payload (POST body of
cloneNmappingDMO.py line 151).  The Python set built on line 145 is
modelled as a deduplicated list; the iteration order of the Python
set is arbitrary and never significant, only membership is. -/
structure ConsolidatedPost where
  sourceEntityDeveloperName : String
  targetEntityDeveloperName : String
  fieldMapping : List RawFieldMapping
deriving DecidableEq

/-- The payload built for one group by cloneNmappingDMO.py lines
139-151, or none when the filtered and deduplicated pairs are empty
(line 147: the group is skipped entirely). -/
def groupPayload (base : String) (skip : List String) (g : String × List RawFieldMapping) :
    Option ConsolidatedPost :=
  let unique_filtered_fields := (filtered_fields skip g.2).dedup
  if unique_filtered_fields = [] then none
  else some
    { sourceEntityDeveloperName := g.1
      targetEntityDeveloperName := base ++ "__dlm"
      fieldMapping := unique_filtered_fields }

/-- All mapping payloads POSTed by create_new_mappings for a given
input, in group order. -/
def create_new_mappings_payloads (ms : List MappingRecord) (base : String)
    (skip : List String) : List ConsolidatedPost :=
  (consolidated_mappings ms).filterMap (groupPayload base skip)

/-- The concatenation, in input order, of the field mappings of every
record of the list whose source entity name is the given key.  Used
only to state the closed form of the grouping loop. -/
def collect (k : String) : List MappingRecord → List RawFieldMapping
  | [] => []
  | m :: rest =>
    if m.sourceEntityDeveloperName == k then m.fieldMappings ++ collect k rest
    else collect k rest

/-- The non-empty source entity names of the list in order of first
appearance, omitting the ones already seen.  Used only to state the
closed form of the grouping loop. -/
def newKeys (seen : List String) : List MappingRecord → List String
  | [] => []
  | m :: rest =>
    if m.sourceEntityDeveloperName == "" || seen.contains m.sourceEntityDeveloperName then
      newKeys seen rest
    else m.sourceEntityDeveloperName :: newKeys (m.sourceEntityDeveloperName :: seen) rest

/-- The seen accumulator of newKeys after consuming the list. -/
def seenAfter (seen : List String) : List MappingRecord → List String
  | [] => seen
  | m :: rest =>
    if m.sourceEntityDeveloperName == "" || seen.contains m.sourceEntityDeveloperName then
      seenAfter seen rest
    else seenAfter (m.sourceEntityDeveloperName :: seen) rest

/-- The outcome of one remote HTTP call: a 2xx response carrying a
payload, a non-2xx response (requests raise_for_status raises
HTTPError, which the scripts catch), or a transport-level failure
such as a timeout or connection error (requests raises an exception
that is not an HTTPError, which no handler in the scripts catches). -/
inductive CallResult (α : Type) where
  | success (value : α)
  | httpError
  | transportError
deriving DecidableEq

/-- The remote calls a task may observe, one entry per phase.  The
mapping-creation phase issues one POST per consolidated group, whose
outcome is given per source entity name. -/
structure TaskCalls where
  fetchDef : CallResult ObjectDefinition
  postDmo : CallResult Unit
  fetchMaps : CallResult (List MappingRecord)
  postMapping : String → CallResult Unit

/-- A remote call actually issued while processing a task, recorded
in order. -/
inductive CallEvent where
  | fetchDefCall
  | postDmoCall
  | fetchMapsCall
  | postMappingCall (dlo : String)
  | patchCall
deriving DecidableEq

/-- The operation-mode toggles of cloneNmappingDMO.py lines 30-31. -/
structure RunConfig where
  RUN_CLONE_DMO : Bool
  RUN_CREATE_MAPPING : Bool
deriving DecidableEq

/-- One row of the input table of cloneNmappingDMO.py. -/
structure TaskRow where
  SourceDmoName : String
  SourceDataSpace : String
  TargetDmoName : String
  TargetDataSpace : String
deriving DecidableEq

/-- The POST loop of create_new_mappings, cloneNmappingDMO.py lines
136-161: one POST per group, a non-2xx response clears the overall
flag but the loop continues, and an uncaught transport failure (none)
aborts.  The result carries the all_successful flag and the calls
made. -/
def postMappings (oracle : String → CallResult Unit) :
    List ConsolidatedPost → Option (Bool × List CallEvent)
  | [] => some (true, [])
  | c :: rest =>
    match oracle c.sourceEntityDeveloperName with
    | .success _ =>
      (postMappings oracle rest).map
        (fun r => (r.1, CallEvent.postMappingCall c.sourceEntityDeveloperName :: r.2))
    | .httpError =>
      (postMappings oracle rest).map
        (fun r => (false, CallEvent.postMappingCall c.sourceEntityDeveloperName :: r.2))
    | .transportError => none

/-- create_new_mappings of cloneNmappingDMO.py lines 118-161: an
empty fetched list returns success immediately (line 119), otherwise
each consolidated group with surviving pairs is POSTed. -/
def create_new_mappings_run (oracle : String → CallResult Unit) (ms : List MappingRecord)
    (base : String) (skip : List String) : Option (Bool × List CallEvent) :=
  if ms.isEmpty then some (true, [])
  else postMappings oracle (create_new_mappings_payloads ms base skip)

/-- The clone phase of the task loop, cloneNmappingDMO.py lines
221-226: POST the new DMO when the mode is enabled, otherwise assume
the target exists. -/
def runClonePhase (cfg : RunConfig) (calls : TaskCalls) : Option (Bool × List CallEvent) :=
  if cfg.RUN_CLONE_DMO then
    match calls.postDmo with
    | .success _ => some (true, [CallEvent.postDmoCall])
    | .httpError => some (false, [CallEvent.postDmoCall])
    | .transportError => none
  else some (true, [])

/-- The mapping phase of the task loop, cloneNmappingDMO.py lines
228-236: fetch the original mappings and create the new ones when the
mode is enabled and the clone phase succeeded; with the mode disabled
the phase counts as success; with the mode enabled after a failed
clone phase the flag initialised on line 206 stays false. -/
def runMappingPhase (cfg : RunConfig) (calls : TaskCalls) (dmo_succeeded : Bool)
    (base : String) (skip : List String) : Option (Bool × List CallEvent) :=
  if dmo_succeeded && cfg.RUN_CREATE_MAPPING then
    match calls.fetchMaps with
    | .success original_mappings =>
      (create_new_mappings_run calls.postMapping original_mappings base skip).map
        (fun r => (r.1, CallEvent.fetchMapsCall :: r.2))
    | .httpError => some (false, [CallEvent.fetchMapsCall])
    | .transportError => none
  else if !cfg.RUN_CREATE_MAPPING then some (true, [])
  else some (false, [])

/-- One iteration of the task loop of cloneNmappingDMO.py lines
196-244: fetch the source definition (a failed GET tallies the task
as failed and skips it, line 211-215), derive the system fields to
skip (line 218), run the clone and mapping phases, and combine the
two flags into the task outcome (lines 238-244).  The result is the
outcome together with the remote calls made, or none when an uncaught
exception aborts the whole run. -/
def processTask (cfg : RunConfig) (calls : TaskCalls) (row : TaskRow) :
    Option (Bool × List CallEvent) :=
  let base := pyReplaceDunderDlm row.TargetDmoName
  match calls.fetchDef with
  | .transportError => none
  | .httpError => some (false, [CallEvent.fetchDefCall])
  | .success dmo_definition =>
    let skip :=
      (dmo_definition.fields.filter (fun f => f.creationType == "System")).map
        (fun f => f.name)
    match runClonePhase cfg calls with
    | none => none
    | some (dmo_succeeded, evs1) =>
      match runMappingPhase cfg calls dmo_succeeded base skip with
      | none => none
      | some (mapping_succeeded, evs2) =>
        some ((!cfg.RUN_CLONE_DMO || dmo_succeeded) &&
              (!cfg.RUN_CREATE_MAPPING || mapping_succeeded),
              CallEvent.fetchDefCall :: (evs1 ++ evs2))

/-- Adding one task outcome to the success and failure counters. -/
def tally (ok : Bool) : Option (Nat × Nat) → Option (Nat × Nat)
  | none => none
  | some (s, f) => some (if ok then s + 1 else s, if ok then f else f + 1)

/-- The whole task loop of cloneNmappingDMO.py main: tasks run in
order, each outcome is tallied, and an uncaught exception in any task
aborts the run with no final tally. -/
def runBatch (cfg : RunConfig) : List (TaskRow × TaskCalls) → Option (Nat × Nat)
  | [] => some (0, 0)
  | (row, calls) :: rest =>
    match processTask cfg calls row with
    | none => none
    | some (ok, _) => tally ok (runBatch cfg rest)

/-- The remote calls one field-addition task may observe. -/
structure UpdateTaskCalls where
  fetchSource : CallResult ObjectDefinition
  fetchTarget : CallResult ObjectDefinition
  patchResult : CallResult Unit

/-- One iteration of the task loop of updateDmoFields.py lines
241-309: fetch both definitions (either failed GET tallies the task
as failed and skips it), compute the fields to add, and either finish
successfully with nothing to add (lines 290-293), finish successfully
in dry-run mode, or PATCH the target. -/
def processUpdateTask (dryRun : Bool) (calls : UpdateTaskCalls) :
    Option (Bool × List CallEvent) :=
  match calls.fetchSource with
  | .transportError => none
  | .httpError => some (false, [CallEvent.fetchDefCall])
  | .success source_def =>
    match calls.fetchTarget with
    | .transportError => none
    | .httpError => some (false, [CallEvent.fetchDefCall, CallEvent.fetchDefCall])
    | .success target_def =>
      if fields_to_add source_def target_def = [] then
        some (true, [CallEvent.fetchDefCall, CallEvent.fetchDefCall])
      else if dryRun then
        some (true, [CallEvent.fetchDefCall, CallEvent.fetchDefCall])
      else
        match calls.patchResult with
        | .success _ =>
          some (true, [CallEvent.fetchDefCall, CallEvent.fetchDefCall, CallEvent.patchCall])
        | .httpError =>
          some (false, [CallEvent.fetchDefCall, CallEvent.fetchDefCall, CallEvent.patchCall])
        | .transportError => none

/-- The whole task loop of updateDmoFields.py main. -/
def runUpdateBatch (dryRun : Bool) : List UpdateTaskCalls → Option (Nat × Nat)
  | [] => some (0, 0)
  | calls :: rest =>
    match processUpdateTask dryRun calls with
    | none => none
    | some (ok, _) => tally ok (runUpdateBatch dryRun rest)

lemma removeFirstSsot_of_prefix {l : List Char}
    (h : ("ssot__".data).isPrefixOf l = true) : removeFirstSsot l = l.drop 6 := by
  rw [List.isPrefixOf_iff_prefix] at h
  obtain ⟨t, ht⟩ := h
  have hd : "ssot__".data = ['s', 's', 'o', 't', '_', '_'] := rfl
  rw [hd] at ht
  subst ht
  rfl

lemma transform_name_eq_spec (s : String) : transform_name s = spec_transform s := by
  unfold transform_name spec_transform
  by_cases h : ("ssot__".data).isPrefixOf s.data = true
  · simp only [h, if_true, removeFirstSsot_of_prefix h]
  · simp [h]

lemma cloneFieldPayloads_filter_system (fields : List DmoField) :
    cloneFieldPayloads (fields.filter (fun f => !(f.creationType == "System"))) =
      cloneFieldPayloads fields := by
  induction fields with
  | nil => rfl
  | cons f rest ih =>
    by_cases h : f.creationType == "System"
    · simp only [cloneFieldPayloads, List.filter_cons, h, Bool.not_true, List.filterMap_cons,
        if_pos (by simpa using h)] at ih ⊢
      simpa [show f.creationType = "System" by simpa using h] using ih
    · simp only [cloneFieldPayloads, List.filter_cons, h, Bool.not_false, List.filterMap_cons] at ih ⊢
      simpa [show ¬f.creationType = "System" by simpa using h] using ih

lemma lenient_single_system (f : DmoField) (hSys : f.creationType = "System") :
    lenientFieldPayloads [f] ≠ [] ↔ f.isPrimaryKey = true ∧ transform_name f.name ≠ "" := by
  unfold lenientFieldPayloads transform_field_from_source
  cases hPK : f.isPrimaryKey
  · simp [hSys, hPK]
  · by_cases hT : transform_name f.name = ""
    · simp [hSys, hPK, hT]
    · simp [hSys, hPK, hT]

/-- Claim C2 counterexample: the claim asserts that the stated
prefix-then-suffix rename rule is the rename applied in every flow,
but the clone-object and clone-and-map flows rename a field by
removing every occurrence of the custom suffix pattern and never
strip the system namespace marker: on the field name with two suffix
occurrences the clone flows emit AB where the stated rule yields the
name with only the final occurrence removed, and on a name starting
with the system marker the clone flows leave it unchanged where the
stated rule strips the marker. -/
theorem claim_C2_counterexample :
    (cloneFieldPayloads [⟨"A__cB__c", some "L", some "D", some "T", false, "Custom"⟩]).map
        (fun p => p.name) = ["AB"] ∧
    (cloneFieldPayloads [⟨"ssot__Name", some "L", some "D", some "T", false, "Custom"⟩]).map
        (fun p => p.name) = ["ssot__Name"] ∧
    spec_transform "A__cB__c" = "A__cB" ∧
    spec_transform "ssot__Name" = "Name" ∧
    ("AB" : String) ≠ "A__cB" ∧
    ("ssot__Name" : String) ≠ "Name" :=
  ⟨by decide, by decide, by decide, by decide, by decide, by decide⟩

/-- Claim C2 amended: the stated transform (strip the system
namespace marker exactly once when the name starts with it, in that
case never also a trailing marker; else strip exactly the one final
custom-suffix occurrence; else leave the name unchanged) is exactly
the rename of the field-addition flow, transform_name; the clone
flows instead remove every occurrence of the custom suffix pattern
and never strip the system marker, as the two clone-flow evaluations
show. -/
theorem claim_C2_amended :
    (∀ s : String, transform_name s = spec_transform s) ∧
    (cloneFieldPayloads [⟨"A__cB__c", some "L", some "D", some "T", false, "Custom"⟩]).map
        (fun p => p.name) = ["AB"] ∧
    (cloneFieldPayloads [⟨"ssot__Name", some "L", some "D", some "T", false, "Custom"⟩]).map
        (fun p => p.name) = ["ssot__Name"] :=
  ⟨transform_name_eq_spec, by decide, by decide⟩

/-- Claim C3 counterexample: under the Lenient policy a field whose
creationType is System and whose isPrimaryKey is true is nevertheless
absent from the payload when its transformed name is empty, so a
System field does not appear if and only if isPrimaryKey is true. -/
theorem claim_C3_counterexample :
    (⟨"", none, none, none, true, "System"⟩ : DmoField).isPrimaryKey = true ∧
    (⟨"", none, none, none, true, "System"⟩ : DmoField).creationType = "System" ∧
    lenientFieldPayloads [⟨"", none, none, none, true, "System"⟩] = [] :=
  ⟨rfl, rfl, by decide⟩

/-- Claim C3 amended: under the Strict policy the fields with
creationType System never contribute to the creation payload
(filtering them away first changes nothing), regardless of
isPrimaryKey; under the Lenient policy a System field contributes a
payload entry if and only if its isPrimaryKey is true and its
transformed name is non-empty. -/
theorem claim_C3_amended :
    (∀ fields : List DmoField,
      cloneFieldPayloads (fields.filter (fun f => !(f.creationType == "System"))) =
        cloneFieldPayloads fields) ∧
    (∀ f : DmoField, f.creationType = "System" →
      (lenientFieldPayloads [f] ≠ [] ↔ f.isPrimaryKey = true ∧ transform_name f.name ≠ "")) :=
  ⟨cloneFieldPayloads_filter_system, lenient_single_system⟩

/-- Claim C3 witness: a System primary-key field with a non-empty
transformed name does appear under the Lenient policy. -/
theorem claim_C3_amended_witness :
    (⟨"ssot__Id__c", none, none, some "text", true, "System"⟩ : DmoField).creationType =
      "System" ∧
    (lenientFieldPayloads [⟨"ssot__Id__c", none, none, some "text", true, "System"⟩] ≠ [] ↔
      (⟨"ssot__Id__c", none, none, some "text", true, "System"⟩ : DmoField).isPrimaryKey = true ∧
        transform_name (⟨"ssot__Id__c", none, none, some "text", true, "System"⟩ :
          DmoField).name ≠ "") :=
  ⟨rfl, claim_C3_amended.2 ⟨"ssot__Id__c", none, none, some "text", true, "System"⟩ rfl⟩

/-- Claim C5 counterexample: the scenario definition processed under
the Lenient policy yields the field names Id__c and Revenue, not Id
and Revenue: the transform strips the system namespace marker once
and in that branch never removes the trailing custom suffix. -/
theorem claim_C5_counterexample :
    (lenientFieldPayloads
      [⟨"ssot__Id__c", none, none, some "text", true, "System"⟩,
       ⟨"Revenue__c", none, none, some "number", false, "Custom"⟩]).map (fun p => p.name) =
      ["Id__c", "Revenue"] ∧
    (["Id__c", "Revenue"] : List String) ≠ ["Id", "Revenue"] :=
  ⟨by decide, by decide⟩

/-- Claim C5 amended: the scenario definition with the System
primary-key field named ssot__Id__c and the Custom field named
Revenue__c, processed under the Lenient policy, yields exactly the
payload fields named Id__c (primary key) and Revenue. -/
theorem claim_C5_amended :
    lenientFieldPayloads
      [⟨"ssot__Id__c", none, none, some "text", true, "System"⟩,
       ⟨"Revenue__c", none, none, some "number", false, "Custom"⟩] =
      [⟨"Id__c", "Id__c", "", true, false, some "text"⟩,
       ⟨"Revenue", "Revenue", "", false, false, some "number"⟩] := by decide

/-- Claim C9 counterexample: in the clone-object flow the transformer
receives nothing but the fetched definition, derives the outbound
name from the fetched definition name (two definitions differing
only there get different outbound names, each with an invented
leading marker) and fixes dataSpaceName to a hard-coded constant, so
name and dataSpaceName are not values supplied by its caller. -/
theorem claim_C9_counterexample :
    (transform_payload_for_post ⟨"Acme__dlm", some "L", some "D", some "C", []⟩).name =
      "iub_Acme" ∧
    (transform_payload_for_post ⟨"Acme__dlm", some "L", some "D", some "C", []⟩).dataSpaceName =
      "IUBR" ∧
    (transform_payload_for_post ⟨"Other__dlm", some "L", some "D", some "C", []⟩).name =
      "iub_Other" ∧
    (transform_payload_for_post ⟨"Other__dlm", some "L", some "D", some "C", []⟩).dataSpaceName =
      "IUBR" ∧
    ("iub_Acme" : String) ≠ "iub_Other" :=
  ⟨by decide, rfl, by decide, rfl, by decide⟩

/-- Claim C9 amended: in the clone-and-map flow the transformer sets
the outbound name and dataSpaceName exactly to its two caller
arguments and copies label and description from the source
definition, category defaulting to OTHER when absent; in the
clone-object flow the transformer itself derives the name by gluing
the hard-coded marker to the source definition name with the dlm
pattern removed and fixes dataSpaceName to the hard-coded constant,
with the same label, description and category pass-through. -/
theorem claim_C9_amended (d : ObjectDefinition) (base space : String) :
    (create_new_dmo_payload d base space).name = base ∧
    (create_new_dmo_payload d base space).dataSpaceName = space ∧
    (create_new_dmo_payload d base space).label = d.label.getD "" ∧
    (create_new_dmo_payload d base space).description = d.description.getD "" ∧
    (create_new_dmo_payload d base space).category = d.category.getD "OTHER" ∧
    (transform_payload_for_post d).name = NEW_DMO_PREFIX ++ pyReplaceDunderDlm d.name ∧
    (transform_payload_for_post d).dataSpaceName = NEW_DATA_SPACE_NAME ∧
    (transform_payload_for_post d).label = d.label.getD "" ∧
    (transform_payload_for_post d).description = d.description.getD "" ∧
    (transform_payload_for_post d).category = d.category.getD "OTHER" :=
  ⟨rfl, rfl, rfl, rfl, rfl, rfl, rfl, rfl, rfl, rfl⟩

lemma transform_field_from_source_name {f : DmoField} {tn : String} {p : NewFieldPayload}
    (h : transform_field_from_source f = some (tn, p)) :
    p.name = tn ∧ tn = transform_name f.name := by
  unfold transform_field_from_source at h
  by_cases h1 : f.creationType == "System" && !f.isPrimaryKey
  · simp [h1] at h
  · simp only [h1, if_false, Bool.false_eq_true] at h
    by_cases h2 : transform_name f.name == ""
    · simp [h2] at h
    · simp only [h2, if_false, Bool.false_eq_true, Option.some.injEq, Prod.mk.injEq] at h
      obtain ⟨h3, h4⟩ := h
      subst h3
      subst h4
      exact ⟨rfl, rfl⟩

/-- Claim C10: in the field-addition flow, every payload field in the
PATCH body has a name that is not among the field names already
present in the target definition, and a source field whose
transformed name already exists in the target contributes nothing to
the PATCH body. -/
theorem claim_C10 (source target : ObjectDefinition) :
    (∀ p ∈ fields_to_add source target, p.name ∉ target_existing_field_names target) ∧
    (∀ sf : DmoField, ∀ tn : String, ∀ p : NewFieldPayload,
      transform_field_from_source sf = some (tn, p) →
      tn ∈ target_existing_field_names target → p ∉ fields_to_add source target) := by
  constructor
  · intro p hp
    unfold fields_to_add at hp
    rw [List.mem_filterMap] at hp
    obtain ⟨sf, _, heq⟩ := hp
    cases hcase : transform_field_from_source sf with
    | none => rw [hcase] at heq; exact absurd heq (by simp)
    | some r =>
      obtain ⟨tn, q⟩ := r
      rw [hcase] at heq
      simp at heq
      obtain ⟨hnot, hq⟩ := heq
      subst hq
      rw [(transform_field_from_source_name hcase).1]
      exact hnot
  · intro sf tn p heq hmem hp
    have h1 := (transform_field_from_source_name heq).1
    have h2 : p.name ∉ target_existing_field_names target := by
      unfold fields_to_add at hp
      rw [List.mem_filterMap] at hp
      obtain ⟨sf', _, heq'⟩ := hp
      cases hcase : transform_field_from_source sf' with
      | none => rw [hcase] at heq'; exact absurd heq' (by simp)
      | some r =>
        obtain ⟨tn', q'⟩ := r
        rw [hcase] at heq'
        simp at heq'
        obtain ⟨hnot, hq⟩ := heq'
        subst hq
        rw [(transform_field_from_source_name hcase).1]
        exact hnot
    rw [h1] at h2
    exact h2 hmem

/-- Claim C10 witness: a concrete source field survives into the
PATCH body and its name is indeed absent from the target. -/
theorem claim_C10_witness :
    (⟨"Revenue", "Revenue", "", false, false, some "number"⟩ : NewFieldPayload) ∈
      fields_to_add
        ⟨"Src", none, none, none, [⟨"Revenue__c", none, none, some "number", false, "Custom"⟩]⟩
        ⟨"Tgt", none, none, none, [⟨"Other", none, none, none, false, "Custom"⟩]⟩ ∧
    (⟨"Revenue", "Revenue", "", false, false, some "number"⟩ : NewFieldPayload).name ∉
      target_existing_field_names
        ⟨"Tgt", none, none, none, [⟨"Other", none, none, none, false, "Custom"⟩]⟩ :=
  ⟨by decide,
   (claim_C10
      ⟨"Src", none, none, none, [⟨"Revenue__c", none, none, some "number", false, "Custom"⟩]⟩
      ⟨"Tgt", none, none, none, [⟨"Other", none, none, none, false, "Custom"⟩]⟩).1
      _ (by decide)⟩

/-- Claim C4: within each emitted consolidated mapping, the pairs are
pairwise distinct, every pair has a non-empty source field name and a
target field name outside the exclusion set, and no emitted group is
empty. -/
theorem claim_C4 (ms : List MappingRecord) (base : String) (skip : List String) :
    ∀ c ∈ create_new_mappings_payloads ms base skip,
      c.fieldMapping.Nodup ∧
      (∀ p ∈ c.fieldMapping,
        p.sourceFieldDeveloperName ≠ "" ∧ p.targetFieldDeveloperName ∉ skip) ∧
      c.fieldMapping ≠ [] := by
  intro c hc
  unfold create_new_mappings_payloads at hc
  rw [List.mem_filterMap] at hc
  obtain ⟨g, _, hg⟩ := hc
  unfold groupPayload at hg
  by_cases he : (filtered_fields skip g.2).dedup = []
  · simp [he] at hg
  · rw [if_neg he] at hg
    have hcval : c = ⟨g.1, base ++ "__dlm", (filtered_fields skip g.2).dedup⟩ :=
      (Option.some.injEq _ _ ▸ hg).symm
    subst hcval
    refine ⟨List.nodup_dedup _, ?_, he⟩
    intro p hp
    have hp2 : p ∈ filtered_fields skip g.2 := List.mem_dedup.1 hp
    unfold filtered_fields at hp2
    rw [List.mem_filter] at hp2
    have := hp2.2
    simp only [Bool.and_eq_true, Bool.not_eq_true', beq_eq_false_iff_ne, ne_eq,
      Bool.not_eq_true] at this
    refine ⟨this.1, ?_⟩
    intro hmem
    have : (skip.contains p.targetFieldDeveloperName) = true := by
      simpa using hmem
    rw [this] at hp2
    simp at hp2

/-- Claim C4 witness: the two records for the same source entity with
a duplicated pair and a system-excluded pair consolidate to a single
payload holding exactly the one surviving pair, and the properties
hold of it. -/
theorem claim_C4_witness :
    (⟨"Account_DLO", "Tgt__dlm", [⟨"A", "B"⟩]⟩ : ConsolidatedPost) ∈
      create_new_mappings_payloads
        [⟨"Account_DLO", [⟨"A", "B"⟩]⟩, ⟨"Account_DLO", [⟨"A", "B"⟩, ⟨"C", "System__c"⟩]⟩]
        "Tgt" ["System__c"] ∧
    ([⟨"A", "B"⟩] : List RawFieldMapping).Nodup ∧
    (∀ p ∈ ([⟨"A", "B"⟩] : List RawFieldMapping),
      p.sourceFieldDeveloperName ≠ "" ∧ p.targetFieldDeveloperName ∉ ["System__c"]) ∧
    ([⟨"A", "B"⟩] : List RawFieldMapping) ≠ [] :=
  ⟨by decide,
   (claim_C4
      [⟨"Account_DLO", [⟨"A", "B"⟩]⟩, ⟨"Account_DLO", [⟨"A", "B"⟩, ⟨"C", "System__c"⟩]⟩]
      "Tgt" ["System__c"]
      ⟨"Account_DLO", "Tgt__dlm", [⟨"A", "B"⟩]⟩ (by decide)).1,
   ((claim_C4
      [⟨"Account_DLO", [⟨"A", "B"⟩]⟩, ⟨"Account_DLO", [⟨"A", "B"⟩, ⟨"C", "System__c"⟩]⟩]
      "Tgt" ["System__c"]
      ⟨"Account_DLO", "Tgt__dlm", [⟨"A", "B"⟩]⟩ (by decide)).2).1,
   ((claim_C4
      [⟨"Account_DLO", [⟨"A", "B"⟩]⟩, ⟨"Account_DLO", [⟨"A", "B"⟩, ⟨"C", "System__c"⟩]⟩]
      "Tgt" ["System__c"]
      ⟨"Account_DLO", "Tgt__dlm", [⟨"A", "B"⟩]⟩ (by decide)).2).2⟩

lemma collect_cons (m : MappingRecord) (k : String) (rest : List MappingRecord) :
    collect k (m :: rest) =
      if m.sourceEntityDeveloperName == k then m.fieldMappings ++ collect k rest
      else collect k rest := rfl

lemma collect_cons_eq {m : MappingRecord} {k : String} (rest : List MappingRecord)
    (h : m.sourceEntityDeveloperName = k) :
    collect k (m :: rest) = m.fieldMappings ++ collect k rest := by
  rw [collect_cons]
  simp [h]

lemma collect_cons_ne {m : MappingRecord} {k : String} (rest : List MappingRecord)
    (h : m.sourceEntityDeveloperName ≠ k) :
    collect k (m :: rest) = collect k rest := by
  rw [collect_cons]
  simp [h]

lemma collect_append (k : String) :
    ∀ xs ys : List MappingRecord, collect k (xs ++ ys) = collect k xs ++ collect k ys
  | [], ys => by simp [collect]
  | m :: xs, ys => by
    by_cases h : m.sourceEntityDeveloperName = k
    · rw [List.cons_append, collect_cons_eq _ h, collect_cons_eq _ h, collect_append k xs ys,
        List.append_assoc]
    · rw [List.cons_append, collect_cons_ne _ h, collect_cons_ne _ h, collect_append k xs ys]

lemma insertGroup_of_not_mem {k : String} (fs : List RawFieldMapping) :
    ∀ {acc : Groups}, k ∉ acc.map Prod.fst → insertGroup acc k fs = acc ++ [(k, fs)]
  | [], _ => rfl
  | (k', v') :: rest, h => by
    simp only [List.map_cons, List.mem_cons, not_or] at h
    have hne : (k' == k) = false := by
      simp only [beq_eq_false_iff_ne, ne_eq]
      exact fun hk => h.1 hk.symm
    unfold insertGroup
    rw [hne]
    simp only [Bool.false_eq_true, if_false, List.cons_append, List.cons.injEq, true_and]
    exact insertGroup_of_not_mem fs h.2

lemma map_update_of_not_mem {k : String} (fs : List RawFieldMapping) :
    ∀ {l : Groups}, k ∉ l.map Prod.fst →
      l.map (fun g => if g.1 = k then (g.1, g.2 ++ fs) else g) = l
  | [], _ => rfl
  | (k', v') :: rest, h => by
    simp only [List.map_cons, List.mem_cons, not_or] at h
    have hne : ¬(k' = k) := fun hk => h.1 hk.symm
    simp only [List.map_cons, hne, if_false]
    rw [map_update_of_not_mem fs h.2]

lemma insertGroup_of_mem {k : String} (fs : List RawFieldMapping) :
    ∀ {acc : Groups}, (acc.map Prod.fst).Nodup → k ∈ acc.map Prod.fst →
      insertGroup acc k fs = acc.map (fun g => if g.1 = k then (g.1, g.2 ++ fs) else g)
  | [], _, h => by simp at h
  | (k', v') :: rest, hnd, h => by
    simp only [List.map_cons, List.mem_cons] at h
    simp only [List.map_cons, List.nodup_cons] at hnd
    by_cases hk : k' = k
    · subst hk
      unfold insertGroup
      simp only [beq_self_eq_true, if_true, List.map_cons, if_pos rfl]
      rw [map_update_of_not_mem fs hnd.1]
    · have hkrest : k ∈ rest.map Prod.fst := by
        rcases h with h | h
        · exact absurd h.symm hk
        · exact h
      have hne : (k' == k) = false := by
        simp only [beq_eq_false_iff_ne, ne_eq]
        exact hk
      unfold insertGroup
      rw [hne]
      simp only [Bool.false_eq_true, if_false, List.map_cons, hk, ite_false]
      rw [insertGroup_of_mem fs hnd.2 hkrest]

lemma keys_map_update (k : String) (fs : List RawFieldMapping) (l : Groups) :
    (l.map (fun g => if g.1 = k then (g.1, g.2 ++ fs) else g)).map Prod.fst =
      l.map Prod.fst := by
  rw [List.map_map]
  apply List.map_congr_left
  intro g _
  by_cases h : g.1 = k <;> simp [h]

lemma newKeys_cons (m : MappingRecord) (seen : List String) (rest : List MappingRecord) :
    newKeys seen (m :: rest) =
      if m.sourceEntityDeveloperName == "" || seen.contains m.sourceEntityDeveloperName then
        newKeys seen rest
      else m.sourceEntityDeveloperName :: newKeys (m.sourceEntityDeveloperName :: seen) rest :=
  rfl

lemma seenAfter_cons (m : MappingRecord) (seen : List String) (rest : List MappingRecord) :
    seenAfter seen (m :: rest) =
      if m.sourceEntityDeveloperName == "" || seen.contains m.sourceEntityDeveloperName then
        seenAfter seen rest
      else seenAfter (m.sourceEntityDeveloperName :: seen) rest :=
  rfl

lemma newKeys_congr : ∀ (ms : List MappingRecord) {s₁ s₂ : List String},
    (∀ x, x ∈ s₁ ↔ x ∈ s₂) → newKeys s₁ ms = newKeys s₂ ms
  | [], _, _, _ => rfl
  | m :: rest, s₁, s₂, h => by
    have hc : s₁.contains m.sourceEntityDeveloperName =
        s₂.contains m.sourceEntityDeveloperName := by
      by_cases hm : m.sourceEntityDeveloperName ∈ s₁
      · have h2 : m.sourceEntityDeveloperName ∈ s₂ := (h _).1 hm
        simp [List.contains, List.elem_eq_mem, hm, h2]
      · have h2 : m.sourceEntityDeveloperName ∉ s₂ := fun hx => hm ((h _).2 hx)
        simp [List.contains, List.elem_eq_mem, hm, h2]
    rw [newKeys_cons, newKeys_cons, hc]
    by_cases hcond :
        (m.sourceEntityDeveloperName == "" ||
          s₂.contains m.sourceEntityDeveloperName) = true
    · rw [if_pos hcond, if_pos hcond]
      exact newKeys_congr rest h
    · rw [if_neg hcond, if_neg hcond]
      refine congrArg _ (newKeys_congr rest ?_)
      intro x
      simp only [List.mem_cons]
      exact or_congr Iff.rfl (h x)

lemma newKeys_mem : ∀ (ms : List MappingRecord) {seen : List String} {k : String},
    k ∈ newKeys seen ms → k ≠ "" ∧ k ∉ seen
  | [], _, _, h => by simp [newKeys] at h
  | m :: rest, seen, k, h => by
    rw [newKeys_cons] at h
    by_cases hcond :
        (m.sourceEntityDeveloperName == "" ||
          seen.contains m.sourceEntityDeveloperName) = true
    · rw [if_pos hcond] at h
      exact newKeys_mem rest h
    · rw [if_neg hcond] at h
      simp only [Bool.or_eq_true, not_or, beq_iff_eq, Bool.not_eq_true] at hcond
      obtain ⟨hc1, hc2⟩ := hcond
      rcases List.mem_cons.1 h with h | h
      · constructor
        · rw [h]; exact hc1
        · rw [h]
          intro hk
          have hkc : seen.contains m.sourceEntityDeveloperName = true := by
            simp only [List.contains, List.elem_eq_mem]
            exact decide_eq_true hk
          rw [hkc] at hc2
          exact absurd hc2 (by simp)
      · have := newKeys_mem rest h
        exact ⟨this.1, fun hk => this.2 (List.mem_cons_of_mem _ hk)⟩

lemma mem_seenAfter_of_mem : ∀ (ms : List MappingRecord) {seen : List String} {x : String},
    x ∈ seen → x ∈ seenAfter seen ms
  | [], _, _, h => h
  | m :: rest, seen, x, h => by
    rw [seenAfter_cons]
    by_cases hcond :
        (m.sourceEntityDeveloperName == "" ||
          seen.contains m.sourceEntityDeveloperName) = true
    · rw [if_pos hcond]
      exact mem_seenAfter_of_mem rest h
    · rw [if_neg hcond]
      exact mem_seenAfter_of_mem rest (List.mem_cons_of_mem _ h)

lemma key_mem_seenAfter : ∀ (ms : List MappingRecord) (seen : List String) {m : MappingRecord},
    m ∈ ms → m.sourceEntityDeveloperName ≠ "" →
    m.sourceEntityDeveloperName ∈ seenAfter seen ms
  | [], _, _, h, _ => by simp at h
  | m' :: rest, seen, m, h, hne => by
    rw [seenAfter_cons]
    rcases List.mem_cons.1 h with h | h
    · subst h
      by_cases hcond :
          (m.sourceEntityDeveloperName == "" ||
            seen.contains m.sourceEntityDeveloperName) = true
      · rw [if_pos hcond]
        rcases Bool.or_eq_true_iff.1 hcond with hc | hc
        · exact absurd (by simpa using hc) hne
        · exact mem_seenAfter_of_mem rest (by simpa [List.contains, List.elem_eq_mem] using hc)
      · rw [if_neg hcond]
        exact mem_seenAfter_of_mem rest (List.mem_cons_self _ _)
    · by_cases hcond :
          (m'.sourceEntityDeveloperName == "" ||
            seen.contains m'.sourceEntityDeveloperName) = true
      · rw [if_pos hcond]
        exact key_mem_seenAfter rest seen h hne
      · rw [if_neg hcond]
        exact key_mem_seenAfter rest _ h hne

lemma newKeys_eq_nil_of_seen : ∀ (ms : List MappingRecord) {s : List String},
    (∀ m ∈ ms, m.sourceEntityDeveloperName = "" ∨ m.sourceEntityDeveloperName ∈ s) →
    newKeys s ms = []
  | [], _, _ => rfl
  | m :: rest, s, h => by
    rw [newKeys_cons]
    have hcond :
        (m.sourceEntityDeveloperName == "" ||
          s.contains m.sourceEntityDeveloperName) = true := by
      rcases h m (List.mem_cons_self _ _) with hc | hc
      · simp [hc]
      · simp [List.contains, List.elem_eq_mem, hc]
    rw [if_pos hcond]
    exact newKeys_eq_nil_of_seen rest (fun m' hm' => h m' (List.mem_cons_of_mem _ hm'))

lemma newKeys_append : ∀ (xs ys : List MappingRecord) (s : List String),
    newKeys s (xs ++ ys) = newKeys s xs ++ newKeys (seenAfter s xs) ys
  | [], ys, s => by simp [newKeys, seenAfter]
  | m :: xs, ys, s => by
    rw [List.cons_append, newKeys_cons, newKeys_cons, seenAfter_cons]
    by_cases hcond :
        (m.sourceEntityDeveloperName == "" ||
          s.contains m.sourceEntityDeveloperName) = true
    · rw [if_pos hcond, if_pos hcond, if_pos hcond]
      exact newKeys_append xs ys s
    · rw [if_neg hcond, if_neg hcond, if_neg hcond]
      rw [List.cons_append, newKeys_append xs ys _]

lemma collect_nil (k : String) : collect k [] = [] := rfl

lemma newKeys_nil (s : List String) : newKeys s [] = [] := rfl

lemma consolidated_from_closed : ∀ (ms : List MappingRecord) (acc : Groups),
    (acc.map Prod.fst).Nodup → "" ∉ acc.map Prod.fst →
    consolidated_from acc ms =
      acc.map (fun g => (g.1, g.2 ++ collect g.1 ms)) ++
        (newKeys (acc.map Prod.fst) ms).map (fun k => (k, collect k ms))
  | [], acc, _, _ => by
    simp [consolidated_from, collect_nil, newKeys_nil]
  | m :: rest, acc, hnd, hne => by
    have hstep : consolidated_from acc (m :: rest) = consolidated_from (addRecord acc m) rest :=
      rfl
    rw [hstep]
    by_cases hk0 : m.sourceEntityDeveloperName = ""
    · have haddr : addRecord acc m = acc := by
        simp [addRecord, hk0]
      rw [haddr, consolidated_from_closed rest acc hnd hne]
      have h1 : acc.map (fun g => (g.1, g.2 ++ collect g.1 rest)) =
          acc.map (fun g => (g.1, g.2 ++ collect g.1 (m :: rest))) := by
        apply List.map_congr_left
        intro g hg
        have hgne : g.1 ≠ "" := by
          intro hh
          apply hne
          rw [← hh]
          exact List.mem_map_of_mem Prod.fst hg
        rw [collect_cons_ne _ (by rw [hk0]; exact fun hh => hgne hh.symm)]
      have h3 : (newKeys (acc.map Prod.fst) rest).map (fun k => (k, collect k rest)) =
          (newKeys (acc.map Prod.fst) rest).map (fun k => (k, collect k (m :: rest))) := by
        apply List.map_congr_left
        intro k hk
        have hkne := (newKeys_mem rest hk).1
        rw [collect_cons_ne _ (by rw [hk0]; exact fun hh => hkne hh.symm)]
      have h2 : newKeys (acc.map Prod.fst) (m :: rest) = newKeys (acc.map Prod.fst) rest := by
        rw [newKeys_cons, if_pos (by simp [hk0])]
      rw [h1, h3, h2]
    · have hb : (m.sourceEntityDeveloperName == "") = false := by
        simp [hk0]
      by_cases hmem : m.sourceEntityDeveloperName ∈ acc.map Prod.fst
      · have haddr : addRecord acc m =
            acc.map (fun g => if g.1 = m.sourceEntityDeveloperName
              then (g.1, g.2 ++ m.fieldMappings) else g) := by
          unfold addRecord
          rw [hb]
          simp only [Bool.false_eq_true, if_false]
          exact insertGroup_of_mem _ hnd hmem
        rw [haddr]
        have hkeys := keys_map_update m.sourceEntityDeveloperName m.fieldMappings acc
        rw [consolidated_from_closed rest _ (by rw [hkeys]; exact hnd)
          (by rw [hkeys]; exact hne)]
        rw [hkeys]
        have hleft : (acc.map (fun g => if g.1 = m.sourceEntityDeveloperName
              then (g.1, g.2 ++ m.fieldMappings) else g)).map
                (fun g => (g.1, g.2 ++ collect g.1 rest)) =
            acc.map (fun g => (g.1, g.2 ++ collect g.1 (m :: rest))) := by
          rw [List.map_map]
          apply List.map_congr_left
          intro g _
          by_cases hg : g.1 = m.sourceEntityDeveloperName
          · simp only [Function.comp_apply, if_pos hg]
            rw [collect_cons_eq rest hg.symm, List.append_assoc]
          · simp only [Function.comp_apply, if_neg hg]
            rw [collect_cons_ne _ (fun hh => hg hh.symm)]
        have hcond : (m.sourceEntityDeveloperName == "" ||
            (acc.map Prod.fst).contains m.sourceEntityDeveloperName) = true := by
          simp [List.contains, List.elem_eq_mem, hmem]
        have hnew : newKeys (acc.map Prod.fst) (m :: rest) =
            newKeys (acc.map Prod.fst) rest := by
          rw [newKeys_cons, if_pos hcond]
        have hright : (newKeys (acc.map Prod.fst) rest).map (fun k => (k, collect k rest)) =
            (newKeys (acc.map Prod.fst) rest).map (fun k => (k, collect k (m :: rest))) := by
          apply List.map_congr_left
          intro k hk
          have hknot := (newKeys_mem rest hk).2
          have hkne : m.sourceEntityDeveloperName ≠ k := fun hh => hknot (hh ▸ hmem)
          rw [collect_cons_ne _ hkne]
        rw [hleft, hright, hnew]
      · have haddr : addRecord acc m =
            acc ++ [(m.sourceEntityDeveloperName, m.fieldMappings)] := by
          unfold addRecord
          rw [hb]
          simp only [Bool.false_eq_true, if_false]
          exact insertGroup_of_not_mem _ hmem
        rw [haddr]
        have hkeys : (acc ++ [(m.sourceEntityDeveloperName, m.fieldMappings)]).map Prod.fst =
            acc.map Prod.fst ++ [m.sourceEntityDeveloperName] := by
          simp
        have hnd2 : ((acc ++ [(m.sourceEntityDeveloperName, m.fieldMappings)]).map
            Prod.fst).Nodup := by
          rw [hkeys]
          simp [List.nodup_append, hnd, hmem]
        have hne2 : "" ∉ ((acc ++ [(m.sourceEntityDeveloperName, m.fieldMappings)]).map
            Prod.fst) := by
          rw [hkeys]
          simp only [List.mem_append, List.mem_singleton, not_or]
          exact ⟨hne, fun hh => hk0 hh.symm⟩
        rw [consolidated_from_closed rest _ hnd2 hne2, hkeys]
        have hcond : (m.sourceEntityDeveloperName == "" ||
            (acc.map Prod.fst).contains m.sourceEntityDeveloperName) = false := by
          simp [hb, List.contains, List.elem_eq_mem, hmem]
        have hnew : newKeys (acc.map Prod.fst) (m :: rest) =
            m.sourceEntityDeveloperName ::
              newKeys (m.sourceEntityDeveloperName :: acc.map Prod.fst) rest := by
          rw [newKeys_cons, if_neg (by rw [hcond]; exact fun hh => Bool.false_ne_true hh)]
        rw [hnew]
        have hseen : newKeys (acc.map Prod.fst ++ [m.sourceEntityDeveloperName]) rest =
            newKeys (m.sourceEntityDeveloperName :: acc.map Prod.fst) rest := by
          apply newKeys_congr
          intro x
          simp [or_comm]
        rw [hseen]
        have hleft : (acc ++ [(m.sourceEntityDeveloperName, m.fieldMappings)]).map
              (fun g => (g.1, g.2 ++ collect g.1 rest)) =
            acc.map (fun g => (g.1, g.2 ++ collect g.1 (m :: rest))) ++
              [(m.sourceEntityDeveloperName,
                m.fieldMappings ++ collect m.sourceEntityDeveloperName rest)] := by
          rw [List.map_append]
          congr 1
          apply List.map_congr_left
          intro g hg
          have hgkey : g.1 ∈ acc.map Prod.fst := List.mem_map_of_mem Prod.fst hg
          have hgne : m.sourceEntityDeveloperName ≠ g.1 := fun hh => hmem (hh ▸ hgkey)
          rw [collect_cons_ne _ hgne]
        rw [hleft]
        have hright : (newKeys (m.sourceEntityDeveloperName :: acc.map Prod.fst) rest).map
              (fun k => (k, collect k rest)) =
            (newKeys (m.sourceEntityDeveloperName :: acc.map Prod.fst) rest).map
              (fun k => (k, collect k (m :: rest))) := by
          apply List.map_congr_left
          intro k hk
          have hknot := (newKeys_mem rest hk).2
          have hkne : m.sourceEntityDeveloperName ≠ k := by
            intro hh
            exact hknot (hh ▸ List.mem_cons_self _ _)
          rw [collect_cons_ne _ hkne]
        rw [hright]
        simp [collect_cons_eq rest rfl, List.append_assoc]

lemma consolidated_mappings_closed (ms : List MappingRecord) :
    consolidated_mappings ms = (newKeys [] ms).map (fun k => (k, collect k ms)) := by
  have h := consolidated_from_closed ms [] (by simp) (by simp)
  simpa [consolidated_mappings] using h

lemma dedup_append_of_subset {α : Type} [DecidableEq α] :
    ∀ (x y : List α), (∀ a ∈ x, a ∈ y) → (x ++ y).dedup = y.dedup
  | [], _, _ => by simp
  | a :: x, y, h => by
    have ha : a ∈ x ++ y := List.mem_append_right x (h a (List.mem_cons_self a x))
    rw [List.cons_append, List.dedup_cons_of_mem ha]
    exact dedup_append_of_subset x y (fun b hb => h b (List.mem_cons_of_mem a hb))

lemma newKeys_self_append (ms : List MappingRecord) :
    newKeys [] (ms ++ ms) = newKeys [] ms := by
  rw [newKeys_append]
  have h : newKeys (seenAfter [] ms) ms = [] := by
    apply newKeys_eq_nil_of_seen
    intro m hm
    by_cases hk : m.sourceEntityDeveloperName = ""
    · exact Or.inl hk
    · exact Or.inr (key_mem_seenAfter ms [] hm hk)
  rw [h, List.append_nil]

/-- Claim C6: consolidating the raw mapping list concatenated with
itself (each record fetched twice) produces exactly the same
consolidated payloads as consolidating the list once. -/
theorem claim_C6 (ms : List MappingRecord) (base : String) (skip : List String) :
    create_new_mappings_payloads (ms ++ ms) base skip =
      create_new_mappings_payloads ms base skip := by
  unfold create_new_mappings_payloads
  rw [consolidated_mappings_closed, consolidated_mappings_closed, newKeys_self_append]
  have hfun : ∀ k : String,
      groupPayload base skip (k, collect k (ms ++ ms)) =
        groupPayload base skip (k, collect k ms) := by
    intro k
    unfold groupPayload filtered_fields
    rw [collect_append]
    rw [List.filter_append]
    rw [dedup_append_of_subset _ _ (fun a ha => ha)]
  induction newKeys [] ms with
  | nil => rfl
  | cons k ks ih =>
    rw [List.map_cons, List.map_cons, List.filterMap_cons, List.filterMap_cons, hfun k]
    cases groupPayload base skip (k, collect k ms) with
    | none => exact ih
    | some c => rw [ih]

/-- Claim C7: in both batch flows, a task whose source-definition
fetch fails with a non-2xx response is tallied as failed after making
only that one fetch call (no create, mapping-fetch, mapping-create or
patch call), and the rest of the batch is still processed and tallied
as usual. -/
theorem claim_C7 (cfg : RunConfig) (row : TaskRow) (pd : CallResult Unit)
    (fm : CallResult (List MappingRecord)) (pm : String → CallResult Unit)
    (rest : List (TaskRow × TaskCalls)) (dryRun : Bool)
    (ft : CallResult ObjectDefinition) (pr : CallResult Unit)
    (rest2 : List UpdateTaskCalls) :
    processTask cfg ⟨.httpError, pd, fm, pm⟩ row = some (false, [CallEvent.fetchDefCall]) ∧
    runBatch cfg ((row, ⟨.httpError, pd, fm, pm⟩) :: rest) = tally false (runBatch cfg rest) ∧
    processUpdateTask dryRun ⟨.httpError, ft, pr⟩ = some (false, [CallEvent.fetchDefCall]) ∧
    runUpdateBatch dryRun (⟨.httpError, ft, pr⟩ :: rest2) =
      tally false (runUpdateBatch dryRun rest2) :=
  ⟨rfl, rfl, rfl, rfl⟩

/-- Claim C8: nothing to do is success: an empty fetched mapping list
finishes the mapping phase successfully with no mapping POST, a fetch
whose consolidation leaves no payload does the same, and a
field-addition task with zero new fields is tallied as succeeded with
no PATCH call. -/
theorem claim_C8 (oracle : String → CallResult Unit) (base : String) (skip : List String)
    (ms : List MappingRecord) (dryRun : Bool) (src tgt : ObjectDefinition)
    (pr : CallResult Unit) :
    create_new_mappings_run oracle [] base skip = some (true, []) ∧
    (create_new_mappings_payloads ms base skip = [] →
      create_new_mappings_run oracle ms base skip = some (true, [])) ∧
    (fields_to_add src tgt = [] →
      processUpdateTask dryRun ⟨.success src, .success tgt, pr⟩ =
        some (true, [CallEvent.fetchDefCall, CallEvent.fetchDefCall])) := by
  refine ⟨rfl, ?_, ?_⟩
  · intro h
    unfold create_new_mappings_run
    by_cases he : ms.isEmpty = true
    · rw [if_pos he]
    · rw [if_neg he, h]
      rfl
  · intro h
    show (if fields_to_add src tgt = [] then _ else _) = _
    rw [if_pos h]

/-- Claim C8 witness: a fetch whose only record is filtered to
nothing, and a field-addition task whose single source field already
exists in the target, both finish as success with no outbound
mutation call. -/
theorem claim_C8_witness :
    create_new_mappings_payloads [⟨"DLO", [⟨"", "T"⟩]⟩] "B" [] = [] ∧
    create_new_mappings_run (fun _ => CallResult.httpError) [⟨"DLO", [⟨"", "T"⟩]⟩] "B" [] =
      some (true, []) ∧
    fields_to_add
      ⟨"S", none, none, none, [⟨"Revenue__c", none, none, some "t", false, "Custom"⟩]⟩
      ⟨"T", none, none, none, [⟨"Revenue", none, none, none, false, "Custom"⟩]⟩ = [] ∧
    processUpdateTask false
      ⟨.success ⟨"S", none, none, none,
          [⟨"Revenue__c", none, none, some "t", false, "Custom"⟩]⟩,
        .success ⟨"T", none, none, none,
          [⟨"Revenue", none, none, none, false, "Custom"⟩]⟩,
        .httpError⟩ =
      some (true, [CallEvent.fetchDefCall, CallEvent.fetchDefCall]) :=
  ⟨by decide,
   (claim_C8 (fun _ => CallResult.httpError) "B" [] [⟨"DLO", [⟨"", "T"⟩]⟩] false
      ⟨"S", none, none, none, []⟩ ⟨"T", none, none, none, []⟩ CallResult.httpError).2.1
      (by decide),
   by decide,
   (claim_C8 (fun _ => CallResult.httpError) "B" [] [] false
      ⟨"S", none, none, none, [⟨"Revenue__c", none, none, some "t", false, "Custom"⟩]⟩
      ⟨"T", none, none, none, [⟨"Revenue", none, none, none, false, "Custom"⟩]⟩
      CallResult.httpError).2.2 (by decide)⟩

/-- Claim C1 counterexample: in a two-task batch with both phases
enabled, a transport-level failure of the first task's definition
fetch is not caught (only the HTTPError of a non-2xx response is), so
the run aborts with no tally and the second task never runs, whereas
the same batch with a non-2xx response on that fetch tallies the
first task as failed and still processes the second task to success
-- the two outcomes the claim says are identical differ. -/
theorem claim_C1_counterexample :
    runBatch ⟨true, true⟩
      [(⟨"S", "A", "T", "B"⟩,
        ⟨.transportError, .success (), .success [], fun _ => .success ()⟩),
       (⟨"S2", "A", "T2", "B"⟩,
        ⟨.success ⟨"D", none, none, none, []⟩, .success (), .success [],
          fun _ => .success ()⟩)] = none ∧
    runBatch ⟨true, true⟩
      [(⟨"S", "A", "T", "B"⟩,
        ⟨.httpError, .success (), .success [], fun _ => .success ()⟩),
       (⟨"S2", "A", "T2", "B"⟩,
        ⟨.success ⟨"D", none, none, none, []⟩, .success (), .success [],
          fun _ => .success ()⟩)] = some (1, 1) :=
  ⟨rfl, rfl⟩

lemma postMappings_httpError : ∀ ps : List ConsolidatedPost,
    postMappings (fun _ => CallResult.httpError) ps =
      some (ps.isEmpty,
        ps.map (fun c => CallEvent.postMappingCall c.sourceEntityDeveloperName))
  | [] => rfl
  | c :: rest => by
    have hstep : postMappings (fun _ => CallResult.httpError) (c :: rest) =
        (postMappings (fun _ => CallResult.httpError) rest).map
          (fun r => (false, CallEvent.postMappingCall c.sourceEntityDeveloperName :: r.2)) :=
      rfl
    rw [hstep, postMappings_httpError rest]
    rfl

lemma postMappings_transportError : ∀ ps : List ConsolidatedPost, ps ≠ [] →
    postMappings (fun _ => CallResult.transportError) ps = none
  | [], h => absurd rfl h
  | _ :: _, _ => rfl

lemma processTask_both_mapping (row : TaskRow) (d : ObjectDefinition)
    (pm : String → CallResult Unit) (ms : List MappingRecord) :
    processTask ⟨true, true⟩ ⟨.success d, .success (), .success ms, pm⟩ row =
      match create_new_mappings_run pm ms (pyReplaceDunderDlm row.TargetDmoName)
          ((d.fields.filter (fun f => f.creationType == "System")).map (fun f => f.name)) with
      | none => none
      | some r =>
        some (r.1, CallEvent.fetchDefCall :: CallEvent.postDmoCall ::
          CallEvent.fetchMapsCall :: r.2) := by
  cases h : create_new_mappings_run pm ms (pyReplaceDunderDlm row.TargetDmoName)
      ((d.fields.filter (fun f => f.creationType == "System")).map (fun f => f.name)) with
  | none =>
    simp only [processTask, runClonePhase, runMappingPhase, h]
    rfl
  | some r =>
    simp only [processTask, runClonePhase, runMappingPhase, h]
    rfl

/-- Claim C1 amended: every per-task outcome is tallied and the batch
continues (first two parts), and per phase: a non-2xx HTTP response
on the definition fetch, the definition POST, the mapping fetch or
every mapping POST tallies the task as failed and the batch goes on,
while a transport-level failure (timeout, connection error) on any of
those calls is not caught and aborts the whole run with no tally. -/
theorem claim_C1_amended (cfg : RunConfig) (row : TaskRow) (calls : TaskCalls)
    (rest : List (TaskRow × TaskCalls)) (d : ObjectDefinition)
    (pd : CallResult Unit) (fm : CallResult (List MappingRecord))
    (pm : String → CallResult Unit) (ms : List MappingRecord) :
    (∀ b evs, processTask cfg calls row = some (b, evs) →
      runBatch cfg ((row, calls) :: rest) = tally b (runBatch cfg rest)) ∧
    (processTask cfg calls row = none → runBatch cfg ((row, calls) :: rest) = none) ∧
    processTask ⟨true, true⟩ ⟨.httpError, pd, fm, pm⟩ row =
      some (false, [CallEvent.fetchDefCall]) ∧
    processTask ⟨true, true⟩ ⟨.transportError, pd, fm, pm⟩ row = none ∧
    processTask ⟨true, true⟩ ⟨.success d, .httpError, fm, pm⟩ row =
      some (false, [CallEvent.fetchDefCall, CallEvent.postDmoCall]) ∧
    processTask ⟨true, true⟩ ⟨.success d, .transportError, fm, pm⟩ row = none ∧
    processTask ⟨true, true⟩ ⟨.success d, .success (), .httpError, pm⟩ row =
      some (false,
        [CallEvent.fetchDefCall, CallEvent.postDmoCall, CallEvent.fetchMapsCall]) ∧
    processTask ⟨true, true⟩ ⟨.success d, .success (), .transportError, pm⟩ row = none ∧
    (create_new_mappings_payloads ms (pyReplaceDunderDlm row.TargetDmoName)
        ((d.fields.filter (fun f => f.creationType == "System")).map (fun f => f.name)) ≠ [] →
      processTask ⟨true, true⟩
          ⟨.success d, .success (), .success ms, fun _ => CallResult.httpError⟩ row =
        some (false, CallEvent.fetchDefCall :: CallEvent.postDmoCall ::
          CallEvent.fetchMapsCall ::
          (create_new_mappings_payloads ms (pyReplaceDunderDlm row.TargetDmoName)
            ((d.fields.filter (fun f => f.creationType == "System")).map
              (fun f => f.name))).map
            (fun c => CallEvent.postMappingCall c.sourceEntityDeveloperName)) ∧
      processTask ⟨true, true⟩
          ⟨.success d, .success (), .success ms, fun _ => CallResult.transportError⟩ row =
        none) := by
  refine ⟨?_, ?_, rfl, rfl, rfl, rfl, rfl, rfl, ?_⟩
  · intro b evs h
    have hstep : runBatch cfg ((row, calls) :: rest) =
        match processTask cfg calls row with
        | none => none
        | some (ok, _) => tally ok (runBatch cfg rest) := rfl
    rw [hstep, h]
  · intro h
    have hstep : runBatch cfg ((row, calls) :: rest) =
        match processTask cfg calls row with
        | none => none
        | some (ok, _) => tally ok (runBatch cfg rest) := rfl
    rw [hstep, h]
  · intro hne
    have hms : ms ≠ [] := by
      rintro rfl
      exact hne rfl
    obtain ⟨m, ms', rfl⟩ : ∃ m ms', ms = m :: ms' := by
      cases ms with
      | nil => exact absurd rfl hms
      | cons a l => exact ⟨a, l, rfl⟩
    have hrun1 : create_new_mappings_run (fun _ => CallResult.httpError) (m :: ms')
        (pyReplaceDunderDlm row.TargetDmoName)
        ((d.fields.filter (fun f => f.creationType == "System")).map (fun f => f.name)) =
        postMappings (fun _ => CallResult.httpError)
          (create_new_mappings_payloads (m :: ms') (pyReplaceDunderDlm row.TargetDmoName)
            ((d.fields.filter (fun f => f.creationType == "System")).map (fun f => f.name))) :=
      rfl
    have hrun2 : create_new_mappings_run (fun _ => CallResult.transportError) (m :: ms')
        (pyReplaceDunderDlm row.TargetDmoName)
        ((d.fields.filter (fun f => f.creationType == "System")).map (fun f => f.name)) =
        postMappings (fun _ => CallResult.transportError)
          (create_new_mappings_payloads (m :: ms') (pyReplaceDunderDlm row.TargetDmoName)
            ((d.fields.filter (fun f => f.creationType == "System")).map (fun f => f.name))) :=
      rfl
    obtain ⟨p, ps, hP⟩ : ∃ p ps, create_new_mappings_payloads (m :: ms')
        (pyReplaceDunderDlm row.TargetDmoName)
        ((d.fields.filter (fun f => f.creationType == "System")).map (fun f => f.name)) =
        p :: ps := by
      cases hc : create_new_mappings_payloads (m :: ms')
          (pyReplaceDunderDlm row.TargetDmoName)
          ((d.fields.filter (fun f => f.creationType == "System")).map (fun f => f.name)) with
      | nil => exact absurd hc hne
      | cons p ps => exact ⟨p, ps, rfl⟩
    constructor
    · rw [processTask_both_mapping, hrun1, hP, postMappings_httpError]
      rfl
    · rw [processTask_both_mapping, hrun2, hP,
        postMappings_transportError (p :: ps) (by simp)]

/-- Claim C1 witness: concrete instances satisfying the hypotheses of
the amended claim, with the conclusions obtained from it: a fully
successful task is tallied as success, a transport failure makes the
task outcome none and aborts the batch, and a non-empty consolidated
payload with failing mapping POSTs yields a failed task while
transport failures there abort. -/
theorem claim_C1_amended_witness :
    processTask ⟨true, true⟩
      ⟨.success ⟨"D", none, none, none, []⟩, .success (), .success [],
        fun _ => CallResult.success ()⟩ ⟨"S", "A", "T", "B"⟩ =
      some (true,
        [CallEvent.fetchDefCall, CallEvent.postDmoCall, CallEvent.fetchMapsCall]) ∧
    runBatch ⟨true, true⟩
      [(⟨"S", "A", "T", "B"⟩,
        ⟨.success ⟨"D", none, none, none, []⟩, .success (), .success [],
          fun _ => CallResult.success ()⟩)] =
      tally true (runBatch ⟨true, true⟩ []) ∧
    processTask ⟨true, true⟩
      ⟨.transportError, .success (), .success [], fun _ => CallResult.success ()⟩
      ⟨"S", "A", "T", "B"⟩ = none ∧
    runBatch ⟨true, true⟩
      [(⟨"S", "A", "T", "B"⟩,
        ⟨.transportError, .success (), .success [], fun _ => CallResult.success ()⟩)] =
      none ∧
    create_new_mappings_payloads [⟨"DLO", [⟨"a", "b"⟩]⟩]
      (pyReplaceDunderDlm (⟨"S", "A", "T", "B"⟩ : TaskRow).TargetDmoName)
      (((⟨"D", none, none, none, []⟩ : ObjectDefinition).fields.filter
        (fun f => f.creationType == "System")).map (fun f => f.name)) ≠ [] ∧
    processTask ⟨true, true⟩
      ⟨.success ⟨"D", none, none, none, []⟩, .success (),
        .success [⟨"DLO", [⟨"a", "b"⟩]⟩], fun _ => CallResult.httpError⟩
      ⟨"S", "A", "T", "B"⟩ =
      some (false, CallEvent.fetchDefCall :: CallEvent.postDmoCall ::
        CallEvent.fetchMapsCall ::
        (create_new_mappings_payloads [⟨"DLO", [⟨"a", "b"⟩]⟩]
          (pyReplaceDunderDlm (⟨"S", "A", "T", "B"⟩ : TaskRow).TargetDmoName)
          (((⟨"D", none, none, none, []⟩ : ObjectDefinition).fields.filter
            (fun f => f.creationType == "System")).map (fun f => f.name))).map
          (fun c => CallEvent.postMappingCall c.sourceEntityDeveloperName)) ∧
    processTask ⟨true, true⟩
      ⟨.success ⟨"D", none, none, none, []⟩, .success (),
        .success [⟨"DLO", [⟨"a", "b"⟩]⟩], fun _ => CallResult.transportError⟩
      ⟨"S", "A", "T", "B"⟩ = none :=
  ⟨by decide,
   (claim_C1_amended ⟨true, true⟩ ⟨"S", "A", "T", "B"⟩
      ⟨.success ⟨"D", none, none, none, []⟩, .success (), .success [],
        fun _ => CallResult.success ()⟩ [] ⟨"D", none, none, none, []⟩
      (.success ()) (.success []) (fun _ => CallResult.success ()) []).1 true
      [CallEvent.fetchDefCall, CallEvent.postDmoCall, CallEvent.fetchMapsCall] (by decide),
   by decide,
   (claim_C1_amended ⟨true, true⟩ ⟨"S", "A", "T", "B"⟩
      ⟨.transportError, .success (), .success [], fun _ => CallResult.success ()⟩ []
      ⟨"D", none, none, none, []⟩ (.success ()) (.success [])
      (fun _ => CallResult.success ()) []).2.1 (by decide),
   by decide,
   ((claim_C1_amended ⟨true, true⟩ ⟨"S", "A", "T", "B"⟩
      ⟨.transportError, .success (), .success [], fun _ => CallResult.success ()⟩ []
      ⟨"D", none, none, none, []⟩ (.success ()) (.success [])
      (fun _ => CallResult.success ()) [⟨"DLO", [⟨"a", "b"⟩]⟩]).2.2.2.2.2.2.2.2
      (by decide)).1,
   ((claim_C1_amended ⟨true, true⟩ ⟨"S", "A", "T", "B"⟩
      ⟨.transportError, .success (), .success [], fun _ => CallResult.success ()⟩ []
      ⟨"D", none, none, none, []⟩ (.success ()) (.success [])
      (fun _ => CallResult.success ()) [⟨"DLO", [⟨"a", "b"⟩]⟩]).2.2.2.2.2.2.2.2
      (by decide)).2⟩
